import Mathlib

/-!
# Verification of the serverless thumbnail generator's batch pipeline

Shallow embedding of `src/lambda-function/lambda_function.py`: the batch
coordinator `lambda_handler`, the per-item pipeline (download → resize →
upload → metrics), key decoding (`urllib.parse.unquote_plus`), routing
classification (the two `startswith` skip checks), and thumbnail-key
derivation (Python `str.replace`).

External collaborators (S3, CloudWatch, PIL's decode/encode) are modelled
as oracles supplied in an `Env` record; the repository's own control flow
is translated faithfully.  Message bodies arrive already split into a list
of `json.loads` results (`Option JVal`, `none` = JSON parse failure); field
navigation on the parsed value is modelled on a JSON value type, so a
missing `Records`/`s3`/... field fails exactly where Python's subscript
raises `KeyError`.
-/

namespace ThumbGen

/-- JSON value, the target of `json.loads` in the handler. -/
inductive JVal where
  | jnull : JVal
  | jbool : Bool → JVal
  | jnum : Int → JVal
  | jstr : String → JVal
  | jarr : List JVal → JVal
  | jobj : List (String × JVal) → JVal
deriving Repr

/-- First-match lookup of a field in a JSON object's field list
(duplicate keys do not occur in the events this system consumes). -/
def lookupField : List (String × JVal) → String → Option JVal
  | [], _ => none
  | (k, v) :: rest, key => if k = key then some v else lookupField rest key

/-- `d[key]` on a parsed JSON value: `some` iff the value is an object
with that field; `none` models Python's fatal `KeyError`/`TypeError`. -/
def JVal.getField : JVal → String → Option JVal
  | .jobj fields, key => lookupField fields key
  | _, _ => none

/-- Iterating a JSON value as a list (`for r in x`): only arrays. -/
def JVal.asArr : JVal → Option (List JVal)
  | .jarr xs => some xs
  | _ => none

/-- Reading a JSON value as a string. -/
def JVal.asStr : JVal → Option String
  | .jstr s => some s
  | _ => none

/-- Value of one hexadecimal digit character, if any. -/
def hexDigitVal (c : Char) : Option Nat :=
  if '0' ≤ c ∧ c ≤ '9' then some (c.toNat - '0'.toNat)
  else if 'a' ≤ c ∧ c ≤ 'f' then some (c.toNat - 'a'.toNat + 10)
  else if 'A' ≤ c ∧ c ≤ 'F' then some (c.toNat - 'A'.toNat + 10)
  else none

/-- `urllib.parse.unquote_plus` from line 220, modelled over character
lists for ASCII byte sequences: `+` decodes to a space, a valid `%XY`
pair decodes to the character with code `16*X + Y`, and an invalid or
truncated percent escape is kept literally, as in Python. -/
def unquotePlus : List Char → List Char
  | [] => []
  | '+' :: rest => ' ' :: unquotePlus rest
  | '%' :: a :: b :: rest =>
    match hexDigitVal a, hexDigitVal b with
    | some x, some y => Char.ofNat (16 * x + y) :: unquotePlus rest
    | _, _ => '%' :: unquotePlus (a :: b :: rest)
  | c :: rest => c :: unquotePlus rest

/-- The source prefix `'images/'` (line 229). -/
def imagesPref : List Char := "images/".toList

/-- The output prefix `'thumbnails/'` (lines 234, 246). -/
def thumbsPref : List Char := "thumbnails/".toList

/-- Reason a work item is skipped before any fetch. -/
inductive SkipReason where
  | wrongPrefix : SkipReason
  | isThumbnail : SkipReason
deriving DecidableEq, Repr

/-- Routing classification of a decoded key (lines 229–236): skip when the
key does not start with `images/`, else skip when it starts with
`thumbnails/`, else eligible (`none`).  Pure; evaluated before any fetch. -/
def classify (key : List Char) : Option SkipReason :=
  if !(imagesPref.isPrefixOf key) then some .wrongPrefix
  else if thumbsPref.isPrefixOf key then some .isThumbnail
  else none

/-- Fuel-indexed core of Python `str.replace(pat, rep)`: every
non-overlapping occurrence, scanning left to right, is replaced.  A match
consumes `pat.length ≥ 1` characters but only one unit of fuel, so
`fuel ≥ s.length` is preserved and the fuel-exhaustion clause is
unreachable from `pyReplace`.  The `pat ≠ []` test mirrors that the call
site's pattern `'images/'` is non-empty. -/
def pyReplaceAux : Nat → List Char → List Char → List Char → List Char
  | _, [], _, _ => []
  | 0, s, _, _ => s
  | fuel + 1, c :: rest, pat, rep =>
    if pat ≠ [] ∧ pat.isPrefixOf (c :: rest) then
      rep ++ pyReplaceAux fuel ((c :: rest).drop pat.length) pat rep
    else
      c :: pyReplaceAux fuel rest pat rep

/-- Python `s.replace(pat, rep)` for a non-empty pattern. -/
def pyReplace (s pat rep : List Char) : List Char :=
  pyReplaceAux s.length s pat rep

/-- Line 246: `thumbnail_key = source_key.replace('images/', 'thumbnails/')`. -/
def thumbnailKey (sourceKey : List Char) : List Char :=
  pyReplace sourceKey imagesPref thumbsPref

/-- `pat` occurs as a contiguous sublist of `s`. -/
def hasInfix (pat : List Char) : List Char → Bool
  | [] => pat.isPrefixOf []
  | c :: rest => pat.isPrefixOf (c :: rest) || hasInfix pat rest

/-- Result of the library part of `resize_image` (PIL decode, RGB
conversion, `Image.thumbnail`, JPEG re-encode), supplied by the oracle:
original dimensions, final dimensions, and the encoded thumbnail bytes. -/
structure PILResult where
  origW : Nat
  origH : Nat
  finalW : Nat
  finalH : Nat
  thumbData : List Nat
deriving Repr

/-- The external collaborators: S3 get/put, PIL, CloudWatch.  Bytes are
lists of `Nat`; a bucket name is carried as the raw JSON value found at
`s3.bucket.name` (Python never type-checks it). -/
structure Env where
  download : JVal → List Char → Except String (List Nat)
  pilResize : List Nat → Except String PILResult
  upload : JVal → List Char → List Nat → Except String Unit
  emitMetrics : Except String Unit
  emitErrorMetric : Except String Unit

/-- The metrics dictionary `resize_image` returns (line 62–69), minus the
wall-clock timing, which the claims do not mention. -/
structure ResizeMetrics where
  original_size : Nat × Nat
  final_size : Nat × Nat
  compression_ratio : Rat
  original_size_bytes : Nat
  thumbnail_size_bytes : Nat
deriving DecidableEq, Repr

/-- `resize_image` (lines 20–74): run the PIL pipeline, then compute
`compression_ratio = len(image_data) / len(thumbnail_data)` (line 50).
Python's division raises `ZeroDivisionError` on a zero-byte thumbnail;
the function's broad `except` re-raises it, so the whole call fails. -/
def resize_image (env : Env) (image_data : List Nat) :
    Except String (List Nat × ResizeMetrics) :=
  match env.pilResize image_data with
  | .error e => .error e
  | .ok pil =>
    if pil.thumbData.length = 0 then
      .error "ZeroDivisionError: division by zero"
    else
      .ok (pil.thumbData,
        { original_size := (pil.origW, pil.origH)
          final_size := (pil.finalW, pil.finalH)
          compression_ratio := (image_data.length : Rat) / (pil.thumbData.length : Rat)
          original_size_bytes := image_data.length
          thumbnail_size_bytes := pil.thumbData.length })

/-- `send_custom_metrics` (lines 130–188): the CloudWatch call is wrapped
in `try/except` that only logs, so the function returns normally whatever
the sink does. -/
def send_custom_metrics (env : Env) : Unit :=
  match env.emitMetrics with
  | .ok _ => ()
  | .error _ => ()

/-- The error-metric block of the per-item `except` handler (lines
287–300): also wrapped in a bare `try/except: pass`. -/
def send_error_metric (env : Env) : Unit :=
  match env.emitErrorMetric with
  | .ok _ => ()
  | .error _ => ()

/-- Externally observable side effects of processing one work item. -/
inductive Effect where
  | fetch : JVal → List Char → Effect
  | transform : Nat → Effect
  | store : JVal → List Char → Effect
  | telemetry : Effect
  | errorTelemetry : Effect

/-- One success entry of `processed_files` (lines 264–274), minus the
wall-clock timings. -/
structure SuccessEntry where
  source_key : List Char
  thumbnail_key : List Char
  compression_ratio : Rat
  original_size_bytes : Nat
  thumbnail_size_bytes : Nat

/-- Terminal result of one storage-event record. -/
inductive Outcome where
  | success : SuccessEntry → Outcome
  | skipped : List Char → SkipReason → Outcome
  | failed : List Char → String → Outcome

/-- The per-item `try` block (lines 238–303) for an eligible item:
download, resize, derive the thumbnail key, upload, emit metrics
(swallowed).  Any failure of the three fallible stages is caught by the
`except` at line 282, which sends a (swallowed) error metric and
continues.  Returns the outcome and the effects that occurred. -/
def processEligible (env : Env) (bucket : JVal) (sourceKey : List Char) :
    Outcome × List Effect :=
  match env.download bucket sourceKey with
  | .error e =>
    let _ := send_error_metric env
    (.failed sourceKey e, [.fetch bucket sourceKey, .errorTelemetry])
  | .ok image_data =>
    match resize_image env image_data with
    | .error e =>
      let _ := send_error_metric env
      (.failed sourceKey e,
       [.fetch bucket sourceKey, .transform image_data.length, .errorTelemetry])
    | .ok (thumbnail_data, m) =>
      let tk := thumbnailKey sourceKey
      match env.upload bucket tk thumbnail_data with
      | .error e =>
        let _ := send_error_metric env
        (.failed sourceKey e,
         [.fetch bucket sourceKey, .transform image_data.length,
          .store bucket tk, .errorTelemetry])
      | .ok _ =>
        let _ := send_custom_metrics env
        (.success
          { source_key := sourceKey
            thumbnail_key := tk
            compression_ratio := m.compression_ratio
            original_size_bytes := m.original_size_bytes
            thumbnail_size_bytes := m.thumbnail_size_bytes },
         [.fetch bucket sourceKey, .transform image_data.length,
          .store bucket tk, .telemetry])

/-- Processing of one record after key decoding: the two skip checks
(lines 229–236, `continue` with no side effect), else the eligible path. -/
def processItem (env : Env) (bucket : JVal) (sourceKey : List Char) :
    Outcome × List Effect :=
  match classify sourceKey with
  | some r => (.skipped sourceKey r, [])
  | none => processEligible env bucket sourceKey

/-- Lines 219–220: `s3_record['s3']['bucket']['name']` and
`unquote_plus(s3_record['s3']['object']['key'])`.  These subscripts run
before the per-item `try`, so a missing field (`none`) is fatal; the key
must be a string for `unquote_plus`, the bucket name is taken as-is. -/
def extractItem (s3_record : JVal) : Option (JVal × List Char) :=
  match s3_record.getField "s3" with
  | none => none
  | some s3 =>
    match (s3.getField "bucket").bind (·.getField "name") with
    | none => none
    | some bucketName =>
      match ((s3.getField "object").bind (·.getField "key")).bind JVal.asStr with
      | none => none
      | some rawKey => some (bucketName, unquotePlus rawKey.toList)

/-- Mutable batch accumulators of `lambda_handler` (lines 201–204), plus
the ordered outcome log and effect trace the code prints/causes. -/
structure BatchState where
  outcomes : List Outcome
  processed_files : List SuccessEntry
  total_files : Nat
  successful_files : Nat
  failed_files : Nat
  effects : List Effect

/-- Lines 201–204: all accumulators start empty. -/
def initState : BatchState :=
  { outcomes := [], processed_files := [], total_files := 0
    successful_files := 0, failed_files := 0, effects := [] }

/-- Fold one resolved outcome into the accumulators: a success appends to
`processed_files` and bumps `successful_files` (lines 264–276), a failure
bumps `failed_files` (line 283), a skip only `continue`s. -/
def applyOutcome (st : BatchState) (res : Outcome × List Effect) : BatchState :=
  match res with
  | (.success entry, effs) =>
    { st with outcomes := st.outcomes ++ [.success entry]
              processed_files := st.processed_files ++ [entry]
              successful_files := st.successful_files + 1
              effects := st.effects ++ effs }
  | (.skipped k r, effs) =>
    { st with outcomes := st.outcomes ++ [.skipped k r]
              effects := st.effects ++ effs }
  | (.failed k c, effs) =>
    { st with outcomes := st.outcomes ++ [.failed k c]
              failed_files := st.failed_files + 1
              effects := st.effects ++ effs }

/-- One iteration of the inner `for s3_record in s3_event['Records']`
loop (lines 214–303): `total_files += 1` first (line 215), then the
field extraction whose failure is fatal, then classification and the
per-item pipeline whose failures are contained. -/
def stepRecord (env : Env) (st : BatchState) (rec : JVal) :
    Except String BatchState :=
  let st' := { st with total_files := st.total_files + 1 }
  match extractItem rec with
  | none => .error "KeyError"
  | some (bucket, sourceKey) => .ok (applyOutcome st' (processItem env bucket sourceKey))

/-- Run the inner loop over a message's records. -/
def runRecords (env : Env) : List JVal → BatchState → Except String BatchState
  | [], st => .ok st
  | rec :: rest, st =>
    match stepRecord env st rec with
    | .error e => .error e
    | .ok st' => runRecords env rest st'

/-- One iteration of the outer `for sqs_record in event['Records']` loop
(lines 209–214): `json.loads(body)` (`none` = `JSONDecodeError`, fatal),
then `s3_event['Records']` must exist and be iterable. -/
def processBody (env : Env) (st : BatchState) (body : Option JVal) :
    Except String BatchState :=
  match body with
  | none => .error "JSONDecodeError"
  | some j =>
    match j.getField "Records" with
    | none => .error "KeyError"
    | some r =>
      match r.asArr with
      | none => .error "TypeError"
      | some recs => runRecords env recs st

/-- Run the outer loop over all message bodies. -/
def runBodies (env : Env) : List (Option JVal) → BatchState → Except String BatchState
  | [], st => .ok st
  | b :: rest, st =>
    match processBody env st b with
    | .error e => .error e
    | .ok st' => runBodies env rest st'

/-- The returned body of the `statusCode: 200` object (lines 316–326),
minus the wall-clock execution time. -/
structure HandlerResult where
  statusCode : Nat
  processed_files : List SuccessEntry
  total_processed : Nat
  total_files : Nat
  failed_files : Nat

/-- Assemble the 200 response from the final accumulators. -/
def mkHandlerResult (st : BatchState) : HandlerResult :=
  { statusCode := 200
    processed_files := st.processed_files
    total_processed := st.successful_files
    total_files := st.total_files
    failed_files := st.failed_files }

/-- `lambda_handler` (lines 190–349) over the list of message-body parse
results: the outer `try` re-raises any fatal error (line 349), otherwise
the 200 result is returned.  The final `BatchState` is kept alongside as
the record of the run. -/
def lambda_handler (env : Env) (bodies : List (Option JVal)) :
    Except String (HandlerResult × BatchState) :=
  match runBodies env bodies initState with
  | .error e => .error e
  | .ok st => .ok (mkHandlerResult st, st)

/-- The records one message body contributes, when its structure parses. -/
def flattenBody (body : Option JVal) : Option (List JVal) :=
  body.bind (fun j => (j.getField "Records").bind JVal.asArr)

/-- All storage-event records of the envelope, in order, when every
body's structure parses. -/
def flattenEnvelope : List (Option JVal) → Option (List JVal)
  | [] => some []
  | b :: rest =>
    (flattenBody b).bind fun recs =>
      (flattenEnvelope rest).map fun more => recs ++ more

/-- The extracted `(bucket, decodedKey)` work items of a record list,
when every record has the required fields. -/
def extractAll : List JVal → Option (List (JVal × List Char))
  | [] => some []
  | r :: rest =>
    (extractItem r).bind fun item =>
      (extractAll rest).map fun more => item :: more

/-- The envelope's work items: defined iff the envelope is structurally
well-formed (every body parses, has an array `Records`, and every record
has the `s3.bucket.name` / `s3.object.key` fields with a string key). -/
def envelopeItems (bodies : List (Option JVal)) : Option (List (JVal × List Char)) :=
  (flattenEnvelope bodies).bind extractAll

/-- Reference fold over already-extracted items, used to state what the
handler computes on a well-formed envelope. -/
def runItems (env : Env) : List (JVal × List Char) → BatchState → BatchState
  | [], st => st
  | (bucket, key) :: rest, st =>
    runItems env rest
      (applyOutcome { st with total_files := st.total_files + 1 }
        (processItem env bucket key))

/-- The outcome is a success. -/
def isSuccess : Outcome → Bool
  | .success _ => true
  | _ => false

/-- The outcome is a skip. -/
def isSkip : Outcome → Bool
  | .skipped _ _ => true
  | _ => false

/-- The outcome is a failure. -/
def isFail : Outcome → Bool
  | .failed _ _ => true
  | _ => false

/-- Number of success outcomes in a log. -/
def countSuccess (os : List Outcome) : Nat := (os.filter isSuccess).length

/-- Number of skip outcomes in a log. -/
def countSkip (os : List Outcome) : Nat := (os.filter isSkip).length

/-- Number of failure outcomes in a log. -/
def countFail (os : List Outcome) : Nat := (os.filter isFail).length

/-- The `processed_files` entries of a log, in order. -/
def successEntries (os : List Outcome) : List SuccessEntry :=
  os.filterMap fun o =>
    match o with
    | .success entry => some entry
    | _ => none

/-- A storage-event record JSON value of the shape the S3 notification
contract prescribes: `{s3: {bucket: {name: ...}, object: {key: ...}}}`. -/
def mkS3Record (bucket : JVal) (rawKey : String) : JVal :=
  .jobj [("s3", .jobj
    [("bucket", .jobj [("name", bucket)]),
     ("object", .jobj [("key", .jstr rawKey)])])]

/-- Processing the eligible item `(bucket, key)` under `env` raises the
exception `e` at the fetch, transform, or store stage. -/
def itemRaises (env : Env) (bucket : JVal) (key : List Char) (e : String) : Prop :=
  env.download bucket key = .error e ∨
  (∃ data, env.download bucket key = .ok data ∧ resize_image env data = .error e) ∨
  (∃ data td m, env.download bucket key = .ok data ∧
    resize_image env data = .ok (td, m) ∧
    env.upload bucket (thumbnailKey key) td = .error e)

/-- Modelled from the spec: the Transform Primitive's dimension policy
(spec §4.3).  The scaling is performed inside PIL's `Image.thumbnail`,
external library code not in `src/`; the spec specifies it as scaling by
`min(1, maxW/origW, maxH/origH)` — never upscaling — with dimensions
rounded to nearest. -/
def scaleFac (maxW maxH w h : Nat) : Rat :=
  min 1 (min ((maxW : Rat) / (w : Rat)) ((maxH : Rat) / (h : Rat)))

/-- Modelled from the spec: round a real scaled dimension to the nearest
integer (half up). -/
def roundHalfUp (q : Rat) : Int := ⌊q + 1 / 2⌋

/-- Modelled from the spec: output dimensions of the Transform Primitive
for an input of dimensions `(w, h)` under the default `200×200` bound. -/
def thumbDims (w h : Nat) : Int × Int :=
  (roundHalfUp ((w : Rat) * scaleFac 200 200 w h),
   roundHalfUp ((h : Rat) * scaleFac 200 200 w h))

/-! ## Accumulator lemmas -/

theorem applyOutcome_outcomes (st : BatchState) (r : Outcome × List Effect) :
    (applyOutcome st r).outcomes = st.outcomes ++ [r.1] := by
  rcases r with ⟨o, effs⟩
  cases o <;> rfl

theorem applyOutcome_total (st : BatchState) (r : Outcome × List Effect) :
    (applyOutcome st r).total_files = st.total_files := by
  rcases r with ⟨o, effs⟩
  cases o <;> rfl

theorem applyOutcome_succ (st : BatchState) (r : Outcome × List Effect) :
    (applyOutcome st r).successful_files
      = st.successful_files + (if isSuccess r.1 then 1 else 0) := by
  rcases r with ⟨o, effs⟩
  cases o <;> simp [applyOutcome, isSuccess]

theorem applyOutcome_fail (st : BatchState) (r : Outcome × List Effect) :
    (applyOutcome st r).failed_files
      = st.failed_files + (if isFail r.1 then 1 else 0) := by
  rcases r with ⟨o, effs⟩
  cases o <;> simp [applyOutcome, isFail]

theorem applyOutcome_processed (st : BatchState) (r : Outcome × List Effect) :
    (applyOutcome st r).processed_files
      = st.processed_files ++ successEntries [r.1] := by
  rcases r with ⟨o, effs⟩
  cases o <;> simp [applyOutcome, successEntries]

theorem countSuccess_cons (o : Outcome) (os : List Outcome) :
    countSuccess (o :: os) = (if isSuccess o then 1 else 0) + countSuccess os := by
  simp only [countSuccess, List.filter]
  cases h : isSuccess o <;> simp [Nat.add_comm]

theorem countSkip_cons (o : Outcome) (os : List Outcome) :
    countSkip (o :: os) = (if isSkip o then 1 else 0) + countSkip os := by
  simp only [countSkip, List.filter]
  cases h : isSkip o <;> simp [Nat.add_comm]

theorem countFail_cons (o : Outcome) (os : List Outcome) :
    countFail (o :: os) = (if isFail o then 1 else 0) + countFail os := by
  simp only [countFail, List.filter]
  cases h : isFail o <;> simp [Nat.add_comm]

theorem successEntries_cons (o : Outcome) (os : List Outcome) :
    successEntries (o :: os) = successEntries [o] ++ successEntries os := by
  cases o <;> simp [successEntries]

/-- Every outcome falls in exactly one of the three categories. -/
theorem counts_partition (os : List Outcome) :
    countSuccess os + countFail os + countSkip os = os.length := by
  induction os with
  | nil => rfl
  | cons o rest ih =>
    rw [countSuccess_cons, countFail_cons, countSkip_cons]
    cases o <;> simp [isSuccess, isFail, isSkip] <;> omega

/-- What the item fold computes, accumulator by accumulator. -/
theorem runItems_spec (env : Env) (items : List (JVal × List Char)) (st : BatchState) :
    (runItems env items st).outcomes
        = st.outcomes ++ items.map (fun p => (processItem env p.1 p.2).1) ∧
    (runItems env items st).total_files = st.total_files + items.length ∧
    (runItems env items st).successful_files
        = st.successful_files
          + countSuccess (items.map (fun p => (processItem env p.1 p.2).1)) ∧
    (runItems env items st).failed_files
        = st.failed_files
          + countFail (items.map (fun p => (processItem env p.1 p.2).1)) ∧
    (runItems env items st).processed_files
        = st.processed_files
          ++ successEntries (items.map (fun p => (processItem env p.1 p.2).1)) := by
  induction items generalizing st with
  | nil => simp [runItems, countSuccess, countFail, successEntries]
  | cons p rest ih =>
    rcases p with ⟨bucket, key⟩
    simp only [runItems, List.map_cons]
    obtain ⟨h1, h2, h3, h4, h5⟩ :=
      ih (applyOutcome { st with total_files := st.total_files + 1 }
            (processItem env bucket key))
    refine ⟨?_, ?_, ?_, ?_, ?_⟩
    · rw [h1, applyOutcome_outcomes]
      simp
    · rw [h2, applyOutcome_total]
      simp [Nat.add_assoc, Nat.add_comm 1 rest.length]
    · rw [h3, applyOutcome_succ, countSuccess_cons]
      simp [Nat.add_comm, Nat.add_left_comm, Nat.add_assoc]
    · rw [h4, applyOutcome_fail, countFail_cons]
      simp [Nat.add_comm, Nat.add_left_comm, Nat.add_assoc]
    · rw [h5, applyOutcome_processed]
      cases hpo : (processItem env bucket key).1 <;> simp [successEntries]

/-- The item fold over a concatenation is the composition of the folds. -/
theorem runItems_append (env : Env) (xs ys : List (JVal × List Char)) (st : BatchState) :
    runItems env (xs ++ ys) st = runItems env ys (runItems env xs st) := by
  induction xs generalizing st with
  | nil => rfl
  | cons p rest ih =>
    rcases p with ⟨bucket, key⟩
    simp [runItems, ih]

/-! ## Envelope flattening lemmas -/

theorem extractAll_append (xs ys : List JVal) :
    extractAll (xs ++ ys)
      = (extractAll xs).bind fun i1 => (extractAll ys).map fun i2 => i1 ++ i2 := by
  induction xs with
  | nil =>
    cases h : extractAll ys <;> simp [extractAll, h]
  | cons r rest ih =>
    simp only [List.cons_append, extractAll, ih]
    cases hr : extractItem r <;> cases ha : extractAll rest <;>
      cases hy : extractAll ys <;> simp [hr, ha, hy, ih]

/-- When every record extracts, the inner loop is the item fold. -/
theorem runRecords_extract_some (env : Env) (recs : List JVal)
    (items : List (JVal × List Char)) (st : BatchState)
    (h : extractAll recs = some items) :
    runRecords env recs st = .ok (runItems env items st) := by
  induction recs generalizing items st with
  | nil =>
    simp only [extractAll, Option.some.injEq] at h
    subst h
    rfl
  | cons r rest ih =>
    simp only [extractAll] at h
    cases hr : extractItem r with
    | none => rw [hr] at h; simp at h
    | some item =>
      rw [hr] at h
      cases ha : extractAll rest with
      | none => rw [ha] at h; simp at h
      | some more =>
        rw [ha] at h
        simp only [Option.some_bind, Option.map_some', Option.some.injEq] at h
        subst h
        rcases item with ⟨bucket, key⟩
        simp only [runRecords, stepRecord, hr, runItems]
        exact ih more _ ha

/-- When some record lacks a required field, the inner loop raises. -/
theorem runRecords_extract_none (env : Env) (recs : List JVal) (st : BatchState)
    (h : extractAll recs = none) :
    ∃ e, runRecords env recs st = .error e := by
  induction recs generalizing st with
  | nil => simp [extractAll] at h
  | cons r rest ih =>
    simp only [extractAll] at h
    cases hr : extractItem r with
    | none =>
      exact ⟨"KeyError", by simp [runRecords, stepRecord, hr]⟩
    | some item =>
      rw [hr] at h
      cases ha : extractAll rest with
      | none =>
        rcases item with ⟨bucket, key⟩
        obtain ⟨e, he⟩ := ih
          (applyOutcome { st with total_files := st.total_files + 1 }
            (processItem env bucket key)) ha
        exact ⟨e, by simp [runRecords, stepRecord, hr, he]⟩
      | some more => rw [ha] at h; simp at h

/-- When one body's structure parses, the outer-loop step is the inner loop. -/
theorem processBody_flatten_some (env : Env) (st : BatchState) (body : Option JVal)
    (recs : List JVal) (h : flattenBody body = some recs) :
    processBody env st body = runRecords env recs st := by
  cases body with
  | none => simp [flattenBody] at h
  | some j =>
    simp only [flattenBody, Option.some_bind] at h
    cases hf : j.getField "Records" with
    | none => rw [hf] at h; simp at h
    | some r =>
      rw [hf] at h
      simp only [Option.some_bind] at h
      cases hr : r.asArr with
      | none => rw [hr] at h; simp at h
      | some xs =>
        rw [hr] at h
        simp only [Option.some.injEq] at h
        subst h
        simp [processBody, hf, hr]

/-- When one body's structure does not parse, the outer-loop step raises. -/
theorem processBody_flatten_none (env : Env) (st : BatchState) (body : Option JVal)
    (h : flattenBody body = none) :
    ∃ e, processBody env st body = .error e := by
  cases body with
  | none => exact ⟨"JSONDecodeError", rfl⟩
  | some j =>
    simp only [flattenBody, Option.some_bind] at h
    cases hf : j.getField "Records" with
    | none => exact ⟨"KeyError", by simp [processBody, hf]⟩
    | some r =>
      rw [hf] at h
      simp only [Option.some_bind] at h
      cases hr : r.asArr with
      | none => exact ⟨"TypeError", by simp [processBody, hf, hr]⟩
      | some xs => rw [hr] at h; simp at h

/-- On a well-formed envelope the whole nested fold is the item fold. -/
theorem runBodies_items_some (env : Env) (bodies : List (Option JVal))
    (items : List (JVal × List Char)) (st : BatchState)
    (h : envelopeItems bodies = some items) :
    runBodies env bodies st = .ok (runItems env items st) := by
  induction bodies generalizing items st with
  | nil =>
    simp only [envelopeItems, flattenEnvelope, Option.some_bind, extractAll,
      Option.some.injEq] at h
    subst h
    rfl
  | cons b rest ih =>
    simp only [envelopeItems, flattenEnvelope] at h
    cases hb : flattenBody b with
    | none => rw [hb] at h; simp at h
    | some recs =>
      rw [hb] at h
      cases hrest : flattenEnvelope rest with
      | none => rw [hrest] at h; simp at h
      | some more =>
        rw [hrest] at h
        simp only [Option.some_bind, Option.map_some', extractAll_append] at h
        cases h1 : extractAll recs with
        | none => rw [h1] at h; simp at h
        | some i1 =>
          rw [h1] at h
          cases h2 : extractAll more with
          | none => rw [h2] at h; simp at h
          | some i2 =>
            rw [h2] at h
            simp only [Option.some_bind, Option.map_some', Option.some.injEq] at h
            subst h
            have hpb := processBody_flatten_some env st b recs hb
            have hrr := runRecords_extract_some env recs i1 st h1
            have hrb : envelopeItems rest = some i2 := by
              simp [envelopeItems, hrest, h2]
            simp only [runBodies, hpb, hrr]
            rw [runItems_append]
            exact ih i2 (runItems env i1 st) hrb

/-- On a malformed envelope the whole nested fold raises. -/
theorem runBodies_items_none (env : Env) (bodies : List (Option JVal))
    (st : BatchState) (h : envelopeItems bodies = none) :
    ∃ e, runBodies env bodies st = .error e := by
  induction bodies generalizing st with
  | nil => simp [envelopeItems, flattenEnvelope, extractAll] at h
  | cons b rest ih =>
    simp only [envelopeItems, flattenEnvelope] at h
    cases hb : flattenBody b with
    | none =>
      obtain ⟨e, he⟩ := processBody_flatten_none env st b hb
      exact ⟨e, by simp [runBodies, he]⟩
    | some recs =>
      rw [hb] at h
      cases hrest : flattenEnvelope rest with
      | none =>
        have hpb := processBody_flatten_some env st b recs hb
        cases h1 : extractAll recs with
        | none =>
          obtain ⟨e, he⟩ := runRecords_extract_none env recs st h1
          exact ⟨e, by simp [runBodies, hpb, he]⟩
        | some i1 =>
          have hrr := runRecords_extract_some env recs i1 st h1
          have hrb : envelopeItems rest = none := by
            simp [envelopeItems, hrest]
          obtain ⟨e, he⟩ := ih (runItems env i1 st) hrb
          exact ⟨e, by simp [runBodies, hpb, hrr, he]⟩
      | some more =>
        rw [hrest] at h
        simp only [Option.some_bind, Option.map_some', extractAll_append] at h
        have hpb := processBody_flatten_some env st b recs hb
        cases h1 : extractAll recs with
        | none =>
          obtain ⟨e, he⟩ := runRecords_extract_none env recs st h1
          exact ⟨e, by simp [runBodies, hpb, he]⟩
        | some i1 =>
          rw [h1] at h
          cases h2 : extractAll more with
          | none =>
            have hrr := runRecords_extract_some env recs i1 st h1
            have hrb : envelopeItems rest = none := by
              simp [envelopeItems, hrest, h2]
            obtain ⟨e, he⟩ := ih (runItems env i1 st) hrb
            exact ⟨e, by simp [runBodies, hpb, hrr, he]⟩
          | some i2 => rw [h2] at h; simp at h

/-! ## String-replacement lemmas -/

theorem pyReplaceAux_add_fuel (pat rep : List Char) (fuel k : Nat) (s : List Char)
    (h : s.length ≤ fuel) :
    pyReplaceAux (fuel + k) s pat rep = pyReplaceAux fuel s pat rep := by
  induction fuel generalizing k s with
  | zero =>
    have hs : s = [] := List.eq_nil_of_length_eq_zero (Nat.le_zero.mp h)
    subst hs
    cases k <;> rfl
  | succ fuel ih =>
    cases s with
    | nil => simp [pyReplaceAux]
    | cons c rest =>
      have hshift : fuel + 1 + k = (fuel + k) + 1 := by omega
      rw [hshift]
      simp only [pyReplaceAux]
      by_cases hc : pat ≠ [] ∧ pat.isPrefixOf (c :: rest)
      · rw [if_pos hc, if_pos hc]
        have hlen : ((c :: rest).drop pat.length).length ≤ fuel := by
          have h' : rest.length + 1 ≤ fuel + 1 := by simpa using h
          have hp : 1 ≤ pat.length := List.length_pos.mpr hc.1
          simp only [List.length_drop, List.length_cons]
          omega
        rw [ih k _ hlen]
      · rw [if_neg hc, if_neg hc]
        have hlen : rest.length ≤ fuel := by
          simpa using h
        rw [ih k rest hlen]

theorem pyReplaceAux_fuel_irrel (pat rep : List Char) (f1 f2 : Nat) (s : List Char)
    (h1 : s.length ≤ f1) (h2 : s.length ≤ f2) :
    pyReplaceAux f1 s pat rep = pyReplaceAux f2 s pat rep := by
  rcases Nat.le_total f1 f2 with hle | hle
  · rw [show f2 = f1 + (f2 - f1) from by omega, pyReplaceAux_add_fuel pat rep f1 _ s h1]
  · rw [show f1 = f2 + (f1 - f2) from by omega, pyReplaceAux_add_fuel pat rep f2 _ s h2]

/-- A string without any occurrence of the pattern is left unchanged. -/
theorem pyReplaceAux_no_occur (pat rep : List Char) (fuel : Nat) (s : List Char)
    (h : hasInfix pat s = false) :
    pyReplaceAux fuel s pat rep = s := by
  induction fuel generalizing s with
  | zero => cases s <;> rfl
  | succ fuel ih =>
    cases s with
    | nil => rfl
    | cons c rest =>
      simp only [hasInfix, Bool.or_eq_false_iff] at h
      simp only [pyReplaceAux]
      rw [if_neg]
      · rw [ih rest h.2]
      · intro hc
        exact absurd hc.2 (by simp [h.1])

/-- A string without any occurrence of the pattern is left unchanged. -/
theorem pyReplace_no_occur (pat rep s : List Char) (h : hasInfix pat s = false) :
    pyReplace s pat rep = s :=
  pyReplaceAux_no_occur pat rep s.length s h

/-- Peeling one leading occurrence of the pattern. -/
theorem pyReplace_peel (pat rep s : List Char) (hpat : pat ≠ []) :
    pyReplace (pat ++ s) pat rep = rep ++ pyReplace s pat rep := by
  cases pat with
  | nil => exact absurd rfl hpat
  | cons p ps =>
    have hpre : (p :: ps).isPrefixOf (p :: (ps ++ s)) = true := by
      rw [show p :: (ps ++ s) = (p :: ps) ++ s from rfl, List.isPrefixOf_iff_prefix]
      exact List.prefix_append _ _
    have hdrop : (p :: (ps ++ s)).drop (p :: ps).length = s := by
      simp [List.drop_left]
    show pyReplaceAux ((p :: ps) ++ s).length ((p :: ps) ++ s) _ _ = _
    rw [show ((p :: ps) ++ s).length = (ps.length + s.length) + 1 from by simp [Nat.add_comm],
        show (p :: ps) ++ s = p :: (ps ++ s) from rfl]
    simp only [pyReplaceAux, List.append_eq]
    split
    · rw [hdrop,
        pyReplaceAux_fuel_irrel (p :: ps) rep (ps.length + s.length) s.length s
          (by omega) (Nat.le_refl _)]
      rfl
    · next hcond => exact absurd (And.intro hpat hpre) hcond

/-! ## Classification lemmas -/

/-- A key cannot start with both `images/` and `thumbnails/`. -/
theorem images_thumbs_not_both (key : List Char)
    (h1 : imagesPref.isPrefixOf key = true)
    (h2 : thumbsPref.isPrefixOf key = true) : False := by
  rw [List.isPrefixOf_iff_prefix] at h1 h2
  obtain ⟨t1, e1⟩ := h1
  obtain ⟨t2, e2⟩ := h2
  rw [← e2] at e1
  have hi : imagesPref = 'i' :: "mages/".toList := rfl
  have ht : thumbsPref = 't' :: "humbnails/".toList := rfl
  rw [hi, ht] at e1
  simp only [List.cons_append, List.cons.injEq] at e1
  exact absurd e1.1 (by decide)

/-- A contained per-item failure produces a `failed` outcome with the
item's own key and cause. -/
theorem processItem_raises_failed (env : Env) (bucket : JVal) (key : List Char)
    (e : String) (hc : classify key = none) (hr : itemRaises env bucket key e) :
    (processItem env bucket key).1 = Outcome.failed key e := by
  rcases hr with hd | ⟨data, hd, hrz⟩ | ⟨data, td, m, hd, hrz, hu⟩
  · simp [processItem, hc, processEligible, hd]
  · simp [processItem, hc, processEligible, hd, hrz]
  · simp [processItem, hc, processEligible, hd, hrz, hu]

/-! ## Concrete instances used to exercise the theorems -/

/-- A concrete environment: the key `images/bad.jpg` fails to download,
everything else succeeds, PIL returns a 1-byte thumbnail. -/
def wEnv : Env where
  download := fun _ k =>
    if k = "images/bad.jpg".toList then .error "NoSuchKey" else .ok [7, 7, 7]
  pilResize := fun _ =>
    .ok { origW := 4, origH := 3, finalW := 4, finalH := 3, thumbData := [9] }
  upload := fun _ _ _ => .ok ()
  emitMetrics := .ok ()
  emitErrorMetric := .ok ()

/-- A concrete well-formed 3-record batch: one success, one fetch
failure, one skip. -/
def wBodies : List (Option JVal) :=
  [some (.jobj [("Records", .jarr
    [mkS3Record (.jstr "b") "images/a.jpg",
     mkS3Record (.jstr "b") "images/bad.jpg",
     mkS3Record (.jstr "b") "other/x.png"])])]

/-- The work items `wBodies` flattens to. -/
def wItems : List (JVal × List Char) :=
  [(.jstr "b", "images/a.jpg".toList),
   (.jstr "b", "images/bad.jpg".toList),
   (.jstr "b", "other/x.png".toList)]

/-! ## Claims -/

/-- C2: an envelope fails as a whole — no `statusCode`-200 result, the
error propagates to the caller — exactly when some message body does not
parse or lacks the required `Records`/`s3` fields; on every structurally
well-formed envelope the handler returns normally, whatever the per-item
oracles do. -/
theorem envelope_parse_failure_fatal_iff (env : Env) (bodies : List (Option JVal)) :
    (∃ e, lambda_handler env bodies = Except.error e) ↔ envelopeItems bodies = none := by
  constructor
  · rintro ⟨e, he⟩
    cases h : envelopeItems bodies with
    | none => rfl
    | some items =>
      have hok := runBodies_items_some env bodies items initState h
      simp [lambda_handler, hok] at he
  · intro h
    obtain ⟨e, he⟩ := runBodies_items_none env bodies initState h
    exact ⟨e, by simp [lambda_handler, he]⟩

/-- C10: the dedicated `thumbnails/` skip branch is dead code: no key can
classify as `isThumbnail`, because a key starting with `thumbnails/`
already fails the preceding `images/` test; every recorded skip comes
from the wrong-prefix branch. -/
theorem thumbnail_skip_branch_dead (key : List Char) :
    classify key ≠ some SkipReason.isThumbnail := by
  intro hcl
  cases h1 : imagesPref.isPrefixOf key with
  | false => simp [classify, h1] at hcl
  | true =>
    cases h2 : thumbsPref.isPrefixOf key with
    | false => simp [classify, h1, h2] at hcl
    | true => exact images_thumbs_not_both key h1 h2

/-- C5: an item whose decoded key classifies as a skip is recorded as
`skipped` with no side effect at all: no fetch, no transform, no store,
no telemetry; classification is pure and precedes any fetch. -/
theorem skipped_item_no_effects (env : Env) (bucket : JVal) (key : List Char)
    (r : SkipReason) (h : classify key = some r) :
    processItem env bucket key = (Outcome.skipped key r, []) := by
  simp [processItem, h]

theorem skipped_item_no_effects_witness :
    classify ("other/x.png".toList) = some SkipReason.wrongPrefix ∧
    processItem wEnv (JVal.jstr "b") ("other/x.png".toList)
      = (Outcome.skipped ("other/x.png".toList) SkipReason.wrongPrefix, []) :=
  ⟨by decide,
   skipped_item_no_effects wEnv (JVal.jstr "b") ("other/x.png".toList)
     SkipReason.wrongPrefix (by decide)⟩

/-- C6: the work item's `sourceKey` is the percent-decoding (`+` as
space) of the raw key, computed before classification: the encoded key
`images%2Ftest.jpg` would itself classify as a skip, but its decoding
`images/test.jpg` classifies as eligible. -/
theorem key_decoded_before_classification (bucket : JVal) (rawKey : String) :
    extractItem (mkS3Record bucket rawKey) = some (bucket, unquotePlus rawKey.toList) ∧
    unquotePlus ("images%2Ftest.jpg".toList) = "images/test.jpg".toList ∧
    classify ("images%2Ftest.jpg".toList) = some SkipReason.wrongPrefix ∧
    classify (unquotePlus ("images%2Ftest.jpg".toList)) = none ∧
    unquotePlus ("images/a+b.jpg".toList) = "images/a b.jpg".toList :=
  ⟨rfl, by decide, by decide, by decide, by decide⟩

/-- C3 counterexample: for a key containing `images/` twice, the code
replaces **both** occurrences (Python `str.replace` replaces all), not
only the first one as claimed. -/
theorem thumbnail_key_first_occurrence_counterexample :
    classify ("images/images/a.jpg".toList) = none ∧
    thumbnailKey ("images/images/a.jpg".toList)
      = "thumbnails/thumbnails/a.jpg".toList ∧
    thumbnailKey ("images/images/a.jpg".toList)
      ≠ "thumbnails/images/a.jpg".toList :=
  ⟨by decide, by decide, by decide⟩

/-- C3 (amended): the thumbnail key replaces **every** occurrence of
`images/`; when the remainder after the leading `images/` contains no
further occurrence this coincides with replacing the first occurrence
(`images/a.jpg` ↦ `thumbnails/a.jpg`), and a doubled key has both
occurrences replaced. -/
theorem thumbnail_key_replace_all (rest : List Char)
    (h : hasInfix imagesPref rest = false) :
    thumbnailKey (imagesPref ++ rest) = thumbsPref ++ rest ∧
    thumbnailKey (imagesPref ++ (imagesPref ++ rest))
      = thumbsPref ++ (thumbsPref ++ rest) := by
  have h1 : thumbnailKey (imagesPref ++ rest) = thumbsPref ++ rest := by
    unfold thumbnailKey
    rw [pyReplace_peel _ _ _ (by decide), pyReplace_no_occur _ _ _ h]
  refine ⟨h1, ?_⟩
  unfold thumbnailKey at h1 ⊢
  rw [pyReplace_peel _ _ _ (by decide), h1]

theorem thumbnail_key_replace_all_witness :
    hasInfix imagesPref ("a.jpg".toList) = false ∧
    (thumbnailKey (imagesPref ++ "a.jpg".toList) = thumbsPref ++ "a.jpg".toList ∧
     thumbnailKey (imagesPref ++ (imagesPref ++ "a.jpg".toList))
       = thumbsPref ++ (thumbsPref ++ "a.jpg".toList)) :=
  ⟨by decide, thumbnail_key_replace_all ("a.jpg".toList) (by decide)⟩

/-- C9: the compression ratio of a successful item is exactly
`originalBytes / thumbnailBytes` with a non-zero denominator; a zero-byte
transform output makes `resize_image` fail (Python's division raises),
so the item resolves as a transform-stage failure instead of producing a
degenerate ratio. -/
theorem compression_ratio_guard (env : Env) (data : List Nat) (pil : PILResult)
    (h : env.pilResize data = .ok pil) :
    (pil.thumbData.length = 0 →
      resize_image env data = .error "ZeroDivisionError: division by zero") ∧
    (∀ td m, resize_image env data = .ok (td, m) →
      m.compression_ratio
          = (m.original_size_bytes : Rat) / (m.thumbnail_size_bytes : Rat) ∧
      m.original_size_bytes = data.length ∧
      m.thumbnail_size_bytes = pil.thumbData.length ∧
      m.thumbnail_size_bytes ≠ 0) ∧
    (∀ bucket key, classify key = none → env.download bucket key = .ok data →
      pil.thumbData.length = 0 →
      (processItem env bucket key).1
        = Outcome.failed key "ZeroDivisionError: division by zero") := by
  refine ⟨?_, ?_, ?_⟩
  · intro hz
    simp [resize_image, h, hz]
  · intro td m hm
    by_cases hz : pil.thumbData.length = 0
    · simp [resize_image, h, hz] at hm
    · simp only [resize_image, h, if_neg hz, Except.ok.injEq, Prod.mk.injEq] at hm
      obtain ⟨htd, hmm⟩ := hm
      subst hmm
      exact ⟨rfl, rfl, rfl, hz⟩
  · intro bucket key hcl hd hz
    simp [processItem, hcl, processEligible, hd, resize_image, h, hz]

theorem compression_ratio_guard_witness :
    wEnv.pilResize [7, 7, 7]
        = .ok { origW := 4, origH := 3, finalW := 4, finalH := 3, thumbData := [9] } ∧
    (({ origW := 4, origH := 3, finalW := 4, finalH := 3,
        thumbData := [9] : PILResult }.thumbData.length = 0 →
      resize_image wEnv [7, 7, 7] = .error "ZeroDivisionError: division by zero") ∧
     (∀ td m, resize_image wEnv [7, 7, 7] = .ok (td, m) →
      m.compression_ratio
          = (m.original_size_bytes : Rat) / (m.thumbnail_size_bytes : Rat) ∧
      m.original_size_bytes = ([7, 7, 7] : List Nat).length ∧
      m.thumbnail_size_bytes
          = ({ origW := 4, origH := 3, finalW := 4, finalH := 3,
               thumbData := [9] : PILResult }).thumbData.length ∧
      m.thumbnail_size_bytes ≠ 0) ∧
     (∀ bucket key, classify key = none → wEnv.download bucket key = .ok [7, 7, 7] →
      ({ origW := 4, origH := 3, finalW := 4, finalH := 3,
         thumbData := [9] : PILResult }).thumbData.length = 0 →
      (processItem wEnv bucket key).1
        = Outcome.failed key "ZeroDivisionError: division by zero")) :=
  ⟨rfl, compression_ratio_guard wEnv [7, 7, 7] _ rfl⟩

/-- C8: when fetch, transform and store all succeed, the item is a
success — appended to `processed_files` and counted in
`successful_files` — for **every** behaviour of the telemetry sink: a
failure raised while emitting metrics is swallowed and cannot change the
item's outcome. -/
theorem telemetry_failure_swallowed (env : Env) (bucket : JVal) (key : List Char)
    (data : List Nat) (pil : PILResult)
    (h1 : classify key = none)
    (h2 : env.download bucket key = .ok data)
    (h3 : env.pilResize data = .ok pil)
    (h4 : pil.thumbData.length ≠ 0)
    (h5 : env.upload bucket (thumbnailKey key) pil.thumbData = .ok ()) :
    ∀ emitB errB : Except String Unit,
      processItem { env with emitMetrics := emitB, emitErrorMetric := errB } bucket key
        = (Outcome.success
            { source_key := key
              thumbnail_key := thumbnailKey key
              compression_ratio := (data.length : Rat) / (pil.thumbData.length : Rat)
              original_size_bytes := data.length
              thumbnail_size_bytes := pil.thumbData.length },
           [Effect.fetch bucket key, Effect.transform data.length,
            Effect.store bucket (thumbnailKey key), Effect.telemetry]) ∧
      ∀ st : BatchState,
        (applyOutcome st
          (processItem { env with emitMetrics := emitB, emitErrorMetric := errB }
            bucket key)).successful_files = st.successful_files + 1 ∧
        (applyOutcome st
          (processItem { env with emitMetrics := emitB, emitErrorMetric := errB }
            bucket key)).processed_files
          = st.processed_files ++
            [{ source_key := key
               thumbnail_key := thumbnailKey key
               compression_ratio := (data.length : Rat) / (pil.thumbData.length : Rat)
               original_size_bytes := data.length
               thumbnail_size_bytes := pil.thumbData.length }] := by
  intro emitB errB
  have hmain :
      processItem { env with emitMetrics := emitB, emitErrorMetric := errB } bucket key
        = (Outcome.success
            { source_key := key
              thumbnail_key := thumbnailKey key
              compression_ratio := (data.length : Rat) / (pil.thumbData.length : Rat)
              original_size_bytes := data.length
              thumbnail_size_bytes := pil.thumbData.length },
           [Effect.fetch bucket key, Effect.transform data.length,
            Effect.store bucket (thumbnailKey key), Effect.telemetry]) := by
    simp [processItem, h1, processEligible, resize_image, h2, h3, h4, h5,
      send_custom_metrics]
  refine ⟨hmain, fun st => ?_⟩
  rw [hmain]
  exact ⟨rfl, rfl⟩

theorem telemetry_failure_swallowed_witness :
    classify ("images/a.jpg".toList) = none ∧
    wEnv.download (JVal.jstr "b") ("images/a.jpg".toList) = .ok [7, 7, 7] ∧
    wEnv.pilResize [7, 7, 7]
      = .ok { origW := 4, origH := 3, finalW := 4, finalH := 3, thumbData := [9] } ∧
    ({ origW := 4, origH := 3, finalW := 4, finalH := 3,
       thumbData := [9] : PILResult }).thumbData.length ≠ 0 ∧
    wEnv.upload (JVal.jstr "b") (thumbnailKey ("images/a.jpg".toList)) [9] = .ok () ∧
    (processItem { wEnv with emitMetrics := .error "throttled",
                             emitErrorMetric := .error "throttled" }
        (JVal.jstr "b") ("images/a.jpg".toList)
      = (Outcome.success
          { source_key := "images/a.jpg".toList
            thumbnail_key := thumbnailKey ("images/a.jpg".toList)
            compression_ratio := ((3 : Nat) : Rat) / (((1 : Nat)) : Rat)
            original_size_bytes := 3
            thumbnail_size_bytes := 1 },
         [Effect.fetch (JVal.jstr "b") ("images/a.jpg".toList),
          Effect.transform 3,
          Effect.store (JVal.jstr "b") (thumbnailKey ("images/a.jpg".toList)),
          Effect.telemetry])) :=
  ⟨by decide, rfl, rfl, by decide, rfl,
   ((telemetry_failure_swallowed wEnv (JVal.jstr "b") ("images/a.jpg".toList)
      [7, 7, 7] { origW := 4, origH := 3, finalW := 4, finalH := 3, thumbData := [9] }
      (by decide) rfl rfl (by decide) rfl)
      (.error "throttled") (.error "throttled")).1⟩

/-- C1: on a well-formed envelope the handler always returns the normal
`statusCode`-200 result; every flattened record contributes exactly one
outcome, in order, and an eligible item whose fetch, transform, or store
raises is recorded as a `failed` outcome carrying its own `sourceKey`
while all other items are still processed. -/
theorem batch_failure_isolation (env : Env) (bodies : List (Option JVal))
    (items : List (JVal × List Char)) (h : envelopeItems bodies = some items) :
    ∃ st : BatchState,
      lambda_handler env bodies = .ok (mkHandlerResult st, st) ∧
      (mkHandlerResult st).statusCode = 200 ∧
      st.outcomes = items.map (fun p => (processItem env p.1 p.2).1) ∧
      ∀ p ∈ items, ∀ e, classify p.2 = none → itemRaises env p.1 p.2 e →
        (processItem env p.1 p.2).1 = Outcome.failed p.2 e := by
  refine ⟨runItems env items initState, ?_, rfl, ?_, ?_⟩
  · simp [lambda_handler, runBodies_items_some env bodies items initState h]
  · have := (runItems_spec env items initState).1
    simpa [initState] using this
  · intro p _ e hc hr
    exact processItem_raises_failed env p.1 p.2 e hc hr

theorem batch_failure_isolation_witness :
    envelopeItems wBodies = some wItems ∧
    (∃ st : BatchState,
      lambda_handler wEnv wBodies = .ok (mkHandlerResult st, st) ∧
      (mkHandlerResult st).statusCode = 200 ∧
      st.outcomes = wItems.map (fun p => (processItem wEnv p.1 p.2).1) ∧
      ∀ p ∈ wItems, ∀ e, classify p.2 = none → itemRaises wEnv p.1 p.2 e →
        (processItem wEnv p.1 p.2).1 = Outcome.failed p.2 e) :=
  ⟨rfl, batch_failure_isolation wEnv wBodies wItems rfl⟩

/-- C4: on a well-formed envelope with `N` flattened storage-event
records the returned counters partition the batch:
`total_processed + failed_files + skipped = total_files = N`, and every
record is counted in exactly one of the three categories. -/
theorem batch_counts_partition (env : Env) (bodies : List (Option JVal))
    (items : List (JVal × List Char)) (h : envelopeItems bodies = some items) :
    ∃ (r : HandlerResult) (st : BatchState),
      lambda_handler env bodies = .ok (r, st) ∧
      r.total_processed + r.failed_files + countSkip st.outcomes = r.total_files ∧
      r.total_files = items.length ∧
      st.outcomes.length = items.length ∧
      r.total_processed = countSuccess st.outcomes ∧
      r.failed_files = countFail st.outcomes ∧
      countSuccess st.outcomes + countFail st.outcomes + countSkip st.outcomes
        = st.outcomes.length := by
  obtain ⟨ho, ht, hs, hf, hp⟩ := runItems_spec env items initState
  set st := runItems env items initState with hst
  have houtcomes : st.outcomes = items.map (fun p => (processItem env p.1 p.2).1) := by
    simpa [initState] using ho
  have hlen : st.outcomes.length = items.length := by
    simp [houtcomes]
  have htot : st.total_files = items.length := by
    simpa [initState] using ht
  have hsucc : st.successful_files = countSuccess st.outcomes := by
    rw [houtcomes]
    simpa [initState] using hs
  have hfail : st.failed_files = countFail st.outcomes := by
    rw [houtcomes]
    simpa [initState] using hf
  refine ⟨mkHandlerResult st, st,
    by simp [lambda_handler, runBodies_items_some env bodies items initState h], ?_,
    htot, hlen, hsucc, hfail, counts_partition st.outcomes⟩
  have := counts_partition st.outcomes
  simp only [mkHandlerResult]
  omega

/-- C7: the Transform Primitive's output dimensions (spec-modelled, §4.3)
obey the contract: neither final dimension exceeds the 200 bound, neither
exceeds its original (no upscaling), and the aspect ratio is preserved up
to rounding tolerance — the cross products `finalW·origH` and
`finalH·origW` differ by at most half of `origW + origH`, i.e. by at most
the rounding slack of half a pixel in each dimension. -/
theorem transform_dims_contract (w h : Nat) (hw : 0 < w) (hh : 0 < h) :
    (thumbDims w h).1 ≤ 200 ∧ (thumbDims w h).2 ≤ 200 ∧
    (thumbDims w h).1 ≤ (w : Int) ∧ (thumbDims w h).2 ≤ (h : Int) ∧
    |2 * (((thumbDims w h).1 : Rat) * (h : Rat)
        - ((thumbDims w h).2 : Rat) * (w : Rat))| ≤ (w : Rat) + (h : Rat) := by
  have hwR : (0 : Rat) < w := by exact_mod_cast hw
  have hhR : (0 : Rat) < h := by exact_mod_cast hh
  set q := scaleFac 200 200 w h with hqdef
  have hdims : thumbDims w h
      = (⌊(w : Rat) * q + 1 / 2⌋, ⌊(h : Rat) * q + 1 / 2⌋) := rfl
  have hq1 : q ≤ 1 := min_le_left _ _
  have hqw : q ≤ (200 : Rat) / w := le_trans (min_le_right _ _) (min_le_left _ _)
  have hqh : q ≤ (200 : Rat) / h := le_trans (min_le_right _ _) (min_le_right _ _)
  have hA200 : (w : Rat) * q ≤ 200 := by
    calc (w : Rat) * q ≤ (w : Rat) * ((200 : Rat) / w) :=
          mul_le_mul_of_nonneg_left hqw (le_of_lt hwR)
      _ = 200 := by field_simp
  have hB200 : (h : Rat) * q ≤ 200 := by
    calc (h : Rat) * q ≤ (h : Rat) * ((200 : Rat) / h) :=
          mul_le_mul_of_nonneg_left hqh (le_of_lt hhR)
      _ = 200 := by field_simp
  have hAw : (w : Rat) * q ≤ (w : Rat) := by
    calc (w : Rat) * q ≤ (w : Rat) * 1 :=
          mul_le_mul_of_nonneg_left hq1 (le_of_lt hwR)
      _ = (w : Rat) := mul_one _
  have hBh : (h : Rat) * q ≤ (h : Rat) := by
    calc (h : Rat) * q ≤ (h : Rat) * 1 :=
          mul_le_mul_of_nonneg_left hq1 (le_of_lt hhR)
      _ = (h : Rat) := mul_one _
  rw [hdims]
  have hfW_le : (⌊(w : Rat) * q + 1 / 2⌋ : Rat) ≤ (w : Rat) * q + 1 / 2 :=
    Int.floor_le _
  have hfW_gt : (w : Rat) * q + 1 / 2 < (⌊(w : Rat) * q + 1 / 2⌋ : Rat) + 1 :=
    Int.lt_floor_add_one _
  have hfH_le : (⌊(h : Rat) * q + 1 / 2⌋ : Rat) ≤ (h : Rat) * q + 1 / 2 :=
    Int.floor_le _
  have hfH_gt : (h : Rat) * q + 1 / 2 < (⌊(h : Rat) * q + 1 / 2⌋ : Rat) + 1 :=
    Int.lt_floor_add_one _
  refine ⟨?_, ?_, ?_, ?_, ?_⟩
  · have : ⌊(w : Rat) * q + 1 / 2⌋ < 201 := by
      rw [Int.floor_lt]
      push_cast
      linarith
    omega
  · have : ⌊(h : Rat) * q + 1 / 2⌋ < 201 := by
      rw [Int.floor_lt]
      push_cast
      linarith
    omega
  · have : ⌊(w : Rat) * q + 1 / 2⌋ < (w : Int) + 1 := by
      rw [Int.floor_lt]
      push_cast
      linarith
    omega
  · have : ⌊(h : Rat) * q + 1 / 2⌋ < (h : Int) + 1 := by
      rw [Int.floor_lt]
      push_cast
      linarith
    omega
  · set fW : Rat := (⌊(w : Rat) * q + 1 / 2⌋ : Rat) with hfW
    set fH : Rat := (⌊(h : Rat) * q + 1 / 2⌋ : Rat) with hfH
    set e1 : Rat := fW - (w : Rat) * q with he1
    set e2 : Rat := fH - (h : Rat) * q with he2
    have he1a : e1 ≤ 1 / 2 := by rw [he1]; linarith
    have he1b : -(1 / 2) < e1 := by rw [he1]; linarith
    have he2a : e2 ≤ 1 / 2 := by rw [he2]; linarith
    have he2b : -(1 / 2) < e2 := by rw [he2]; linarith
    have hsplit : 2 * (fW * (h : Rat) - fH * (w : Rat))
        = 2 * (e1 * (h : Rat) - e2 * (w : Rat)) := by
      rw [he1, he2]; ring
    have h1u : e1 * (h : Rat) ≤ (1 / 2) * (h : Rat) :=
      mul_le_mul_of_nonneg_right he1a (le_of_lt hhR)
    have h1l : -((1 / 2) * (h : Rat)) ≤ e1 * (h : Rat) := by
      have := mul_le_mul_of_nonneg_right (le_of_lt he1b) (le_of_lt hhR)
      linarith
    have h2u : e2 * (w : Rat) ≤ (1 / 2) * (w : Rat) :=
      mul_le_mul_of_nonneg_right he2a (le_of_lt hwR)
    have h2l : -((1 / 2) * (w : Rat)) ≤ e2 * (w : Rat) := by
      have := mul_le_mul_of_nonneg_right (le_of_lt he2b) (le_of_lt hwR)
      linarith
    rw [hsplit, abs_le]
    constructor <;> linarith

theorem transform_dims_contract_witness :
    0 < 400 ∧ 0 < 300 ∧
    ((thumbDims 400 300).1 ≤ 200 ∧ (thumbDims 400 300).2 ≤ 200 ∧
     (thumbDims 400 300).1 ≤ (400 : Int) ∧ (thumbDims 400 300).2 ≤ (300 : Int) ∧
     |2 * (((thumbDims 400 300).1 : Rat) * (300 : Rat)
         - ((thumbDims 400 300).2 : Rat) * (400 : Rat))|
       ≤ (400 : Rat) + (300 : Rat)) :=
  ⟨by decide, by decide, transform_dims_contract 400 300 (by decide) (by decide)⟩

theorem batch_counts_partition_witness :
    envelopeItems wBodies = some wItems ∧
    (∃ (r : HandlerResult) (st : BatchState),
      lambda_handler wEnv wBodies = .ok (r, st) ∧
      r.total_processed + r.failed_files + countSkip st.outcomes = r.total_files ∧
      r.total_files = wItems.length ∧
      st.outcomes.length = wItems.length ∧
      r.total_processed = countSuccess st.outcomes ∧
      r.failed_files = countFail st.outcomes ∧
      countSuccess st.outcomes + countFail st.outcomes + countSkip st.outcomes
        = st.outcomes.length) :=
  ⟨rfl, batch_counts_partition wEnv wBodies wItems rfl⟩

end ThumbGen
